import Mathlib

set_option maxRecDepth 8000

/-!
Verification development for the `jakarta` string-interpolation engine
(`src/jakarta/src/jakarta.rs` and the `jakarta-env` provider).

The Rust code scans a working string with the fixed regular expression

  \$(?P<exclude>\$){0,1}\{(?:\s*(?P<command>[^:]+)\s*:\s*(?P<args>[^{}]+?)\s*
      (?:(?::-)(?P<default_value>.+)){0,1}\s*?){0,1}}

and repeatedly resolves every non-escaped match through a caller-supplied
command map, replacing each match's full text globally in the working string,
until no match remains (or only escaped matches remain); a final pass strips
the escape marker from escaped matches.

The embedding below models:
  * the regex abstract syntax (`Re`) restricted to the constructs the fixed
    pattern uses, with a backtracking matcher `matchRe` implementing
    leftmost-first (preference-order) semantics, the documented match
    semantics of the Rust `regex` crate;
  * a compiler `compileRegex` from the concrete pattern text to `Re`,
    modelling `Regex::new` (the only failure point of `Jakarta::new`);
  * match enumeration `capturesList` mirroring `captures_iter` (successive
    non-overlapping leftmost matches);
  * `replace_values`, `replace_exclusions` and the fuel-indexed
    interpolation loop `interpolate_string`, with command handlers modelled
    as state transformers and an explicit call log recording every
    `process` invocation.
-/

/-- Character classes occurring in the fixed pattern: a negated set `[^..]`,
a positive set `[..]`, the perl class `\s`, and `.` (any char except newline). -/
inductive Cls where
  | noneOf (cs : List Char)
  | oneOf (cs : List Char)
  | ws
  | dotNoNl
deriving DecidableEq, Repr

def wsChars : List Char := [' ', '\t', '\n', '\r', '\x0b', '\x0c']

def clsMatch : Cls → Char → Bool
  | Cls.noneOf cs, c => !(cs.contains c)
  | Cls.oneOf cs, c => cs.contains c
  | Cls.ws, c => wsChars.contains c
  | Cls.dotNoNl, c => c != '\n'

/-- Regex abstract syntax. Repetition (`+`, `*`, lazy variants) is only ever
applied to single-character atoms in the fixed pattern, so `rep` carries a
character class; `atLeastOne` distinguishes `+` from `*`. -/
inductive Re where
  | eps
  | ch (c : Char)
  | cc (k : Cls)
  | seq (a b : Re)
  | grp (name : String) (r : Re)
  | opt (greedy : Bool) (r : Re)
  | rep (atLeastOne : Bool) (greedy : Bool) (k : Cls)
deriving DecidableEq, Repr

/-- Named capture groups recorded along the successful match path. -/
abbrev Caps := List (String × List Char)

/-- Length of the maximal run of characters of class `k` at the head of `s`. -/
def countLeading (k : Cls) : List Char → Nat
  | [] => 0
  | c :: r => if clsMatch k c then countLeading k r + 1 else 0

/-- Backtracking matcher in continuation-passing style. Alternatives are tried
in preference order (greedy: longest first / option taken first; lazy:
shortest first), so the first success delivered to the continuation is the
leftmost-first (PCRE-preference) parse, matching the Rust `regex` crate's
documented leftmost-first semantics. -/
def matchRe {β : Type} : Re → List Char → Caps → (List Char → Caps → Option β) → Option β
  | Re.eps, s, caps, k => k s caps
  | Re.ch c, s, caps, k =>
    match s with
    | [] => none
    | c' :: r => if c' = c then k r caps else none
  | Re.cc kl, s, caps, k =>
    match s with
    | [] => none
    | c' :: r => if clsMatch kl c' then k r caps else none
  | Re.seq a b, s, caps, k => matchRe a s caps (fun s' caps' => matchRe b s' caps' k)
  | Re.grp n r, s, caps, k =>
    matchRe r s caps (fun s' caps' => k s' ((n, s.take (s.length - s'.length)) :: caps'))
  | Re.opt g r, s, caps, k =>
    if g then (matchRe r s caps k) <|> k s caps
    else (k s caps) <|> matchRe r s caps k
  | Re.rep one g kl, s, caps, k =>
    let m := countLeading kl s
    let counts :=
      if one then (if g then ((List.range m).reverse).map (· + 1) else (List.range m).map (· + 1))
      else (if g then (List.range (m + 1)).reverse else List.range (m + 1))
    counts.findSome? (fun i => k (s.drop i) caps)

/-- The data the resolver extracts from one regex match, mirroring the named
capture groups of the fixed pattern. `full` is capture group 0. -/
structure MatchData where
  full : List Char
  exclude : Option (List Char)
  command : Option (List Char)
  args : Option (List Char)
  default_value : Option (List Char)
deriving DecidableEq, Repr

def lookupCap (caps : Caps) (n : String) : Option (List Char) :=
  (caps.find? (fun p => p.1 == n)).map (fun p => p.2)

def mkMatchData (full : List Char) (caps : Caps) : MatchData :=
  { full := full
    exclude := lookupCap caps "exclude"
    command := lookupCap caps "command"
    args := lookupCap caps "args"
    default_value := lookupCap caps "default_value" }

/-- Try to match `re` at the start of `s`; on success return the number of
consumed characters and the extracted match data. -/
def matchAt (re : Re) (s : List Char) : Option (Nat × MatchData) :=
  matchRe re s []
    (fun s' caps =>
      some (s.length - s'.length, mkMatchData (s.take (s.length - s'.length)) caps))

/-- Leftmost match: try `matchAt` at each position from the left; return the
offset, consumed length and match data of the first success. -/
def findMatchAux (re : Re) : List Char → Option (Nat × Nat × MatchData)
  | [] => none
  | c :: rest =>
    match matchAt re (c :: rest) with
    | some (len, m) => some (0, len, m)
    | none => (findMatchAux re rest).map (fun p => (p.1 + 1, p.2.1, p.2.2))

def isMatch (re : Re) (s : List Char) : Bool :=
  (findMatchAux re s).isSome

/-- Successive non-overlapping leftmost matches, mirroring `captures_iter`:
after a match, the search resumes at its end (advancing at least one
character). The fuel `n` is set to the string length, which bounds the number
of matches since every step drops at least one character. -/
def capturesAux (re : Re) : Nat → List Char → List MatchData
  | 0, _ => []
  | n + 1, s =>
    match findMatchAux re s with
    | none => []
    | some (p, len, m) => m :: capturesAux re n (s.drop (p + max len 1))

def capturesList (re : Re) (s : List Char) : List MatchData :=
  capturesAux re (s.length + 1) s

/-! ### Compiling the pattern text

`Jakarta::new` compiles its fixed pattern string with `Regex::new`, the sole
failure point of construction. `compileRegex` models that step: a recursive
descent reader of the regex concrete syntax restricted to the constructs the
pattern uses (escapes, named and non-capturing groups, character classes,
`.`, and the quantifiers `{0,1}`, `+`, `+?`, `*`, `*?`). -/

/-- Read the characters of a bracket class up to the closing `]`. -/
def parseClsChars : List Char → Option (List Char × List Char)
  | [] => none
  | ']' :: r => some ([], r)
  | c :: r => (parseClsChars r).map (fun p => (c :: p.1, p.2))

/-- Read a character class after the opening `[`. -/
def parseCls (s : List Char) : Option (Cls × List Char) :=
  match s with
  | '^' :: rest => (parseClsChars rest).map (fun p => (Cls.noneOf p.1, p.2))
  | rest => (parseClsChars rest).map (fun p => (Cls.oneOf p.1, p.2))

/-- Read a group name up to the closing `>`. -/
def parseGroupName : List Char → Option (List Char × List Char)
  | [] => none
  | '>' :: r => some ([], r)
  | c :: r => (parseGroupName r).map (fun p => (c :: p.1, p.2))

def asCls : Re → Option Cls
  | Re.cc k => some k
  | _ => none

/-- Apply a postfix quantifier to an atom if one follows. Repetition is only
accepted on single-character atoms, which is all the fixed pattern needs. -/
def applyQuant (a : Re) (s : List Char) : Option (Re × List Char) :=
  match s with
  | '\x7b' :: '0' :: ',' :: '1' :: '\x7d' :: r => some (Re.opt true a, r)
  | '+' :: '?' :: r => (asCls a).map (fun k => (Re.rep true false k, r))
  | '+' :: r => (asCls a).map (fun k => (Re.rep true true k, r))
  | '*' :: '?' :: r => (asCls a).map (fun k => (Re.rep false false k, r))
  | '*' :: r => (asCls a).map (fun k => (Re.rep false true k, r))
  | r => some (a, r)

/-- Read regex concrete syntax: in sequence mode (`atomMode = false`) read a
sequence of quantified atoms, stopping before `)` or at the end; in atom mode
read one atom (an escape, a group, a class, `.`, or a literal character).
The two modes are fused into one function, structurally recursive on fuel. -/
def parseR : Nat → Bool → List Char → Option (Re × List Char)
  | 0, _, _ => none
  | _ + 1, false, [] => some (Re.eps, [])
  | _ + 1, false, ')' :: r => some (Re.eps, ')' :: r)
  | n + 1, false, s =>
    match parseR n true s with
    | none => none
    | some (a0, r1) =>
      match applyQuant a0 r1 with
      | none => none
      | some (a, r2) =>
        match parseR n false r2 with
        | none => none
        | some (b, r3) => some (Re.seq a b, r3)
  | n + 1, true, s =>
    match s with
    | '\\' :: 's' :: r => some (Re.cc Cls.ws, r)
    | '\\' :: c :: r => some (Re.ch c, r)
    | '[' :: r => (parseCls r).map (fun p => (Re.cc p.1, p.2))
    | '.' :: r => some (Re.cc Cls.dotNoNl, r)
    | '(' :: '?' :: 'P' :: '<' :: r =>
      match parseGroupName r with
      | none => none
      | some (nm, r1) =>
        match parseR n false r1 with
        | some (inner, ')' :: r2) => some (Re.grp (String.mk nm) inner, r2)
        | _ => none
    | '(' :: '?' :: ':' :: r =>
      match parseR n false r with
      | some (inner, ')' :: r2) => some (inner, r2)
      | _ => none
    | '(' :: _ => none
    | ')' :: _ => none
    | '\\' :: [] => none
    | c :: r => some (Re.ch c, r)
    | [] => none

/-- Model of `Regex::new`: compile a pattern string, succeeding only when the
whole text is consumed. -/
def compileRegex (pat : String) : Option Re :=
  match parseR (pat.length * 2 + 4) false pat.toList with
  | some (r, []) => some r
  | _ => none

/-- The fixed interpolation pattern of `Jakarta::new`, verbatim
(braces written as `\x7b`/`\x7d` escapes). -/
def interpolationPattern : String :=
  "\\$(?P<exclude>\\$)\x7b0,1\x7d\\\x7b(?:\\s*(?P<command>[^:]+)\\s*:\\s*(?P<args>[^\x7b\x7d]+?)\\s*(?:(?::-)(?P<default_value>.+))\x7b0,1\x7d\\s*?)\x7b0,1\x7d\x7d"

def reSeq (l : List Re) : Re := l.foldr Re.seq Re.eps

/-- The body of the big optional group of the pattern:
`\s*(?P<command>[^:]+)\s*:\s*(?P<args>[^{}]+?)\s*(?:(?::-)(?P<default_value>.+)){0,1}\s*?`. -/
def jakartaInner : Re :=
  reSeq
    [Re.rep false true Cls.ws,
     Re.grp "command" (reSeq [Re.rep true true (Cls.noneOf [':'])]),
     Re.rep false true Cls.ws,
     Re.ch ':',
     Re.rep false true Cls.ws,
     Re.grp "args" (reSeq [Re.rep true false (Cls.noneOf ['\x7b', '\x7d'])]),
     Re.rep false true Cls.ws,
     Re.opt true
       (reSeq
         [reSeq [Re.ch ':', Re.ch '-'],
          Re.grp "default_value" (reSeq [Re.rep true true Cls.dotNoNl])]),
     Re.rep false false Cls.ws]

/-- The compiled fixed pattern of `Jakarta::new`:
`\$(?P<exclude>\$){0,1}\{(?: inner ){0,1}}`. -/
def jakartaRe : Re :=
  reSeq
    [Re.ch '$',
     Re.opt true (Re.grp "exclude" (reSeq [Re.ch '$'])),
     Re.ch '\x7b',
     Re.opt true jakartaInner,
     Re.ch '\x7d']

/-! ### The resolver -/

/-- The only error of the Rust `JakartaError` enum: regex compilation failure. -/
inductive JakartaError where
  | regexCompilation
deriving DecidableEq, Repr

/-- The caller-supplied command map together with the handlers behind it.
`registered` models `command_map.get(command_id).is_some()`; `process` models
dispatching `JakartaCommand::process(command, args, default_value)` on the
handler registered for the command, threading the handlers' shared mutable
state `σ` (the `Arc<Mutex<_>>` contents). -/
structure Registry (σ : Type) where
  registered : List Char → Bool
  process : σ → List Char → List Char → Option (List Char) → σ × List Char

/-- One recorded invocation of a handler's `process` method. -/
structure JakartaCall where
  command : List Char
  args : List Char
  default_value : Option (List Char)
deriving DecidableEq, Repr

abbrev CallLog := List JakartaCall

structure Jakarta (σ : Type) where
  interpolation_regex : Re
  command_map : Registry σ

/-- Model of `Jakarta::new`: compile the fixed pattern; the command map is
stored unchanged. Compilation of the pattern is the only failure point. -/
def Jakarta.new {σ : Type} (command_map : Registry σ) : Except JakartaError (Jakarta σ) :=
  match compileRegex interpolationPattern with
  | some re => Except.ok { interpolation_regex := re, command_map := command_map }
  | none => Except.error JakartaError.regexCompilation

/-- The `Jakarta` value `new` returns for a given command map. -/
def theJakarta {σ : Type} (reg : Registry σ) : Jakarta σ :=
  { interpolation_regex := jakartaRe, command_map := reg }

/-- Fuel-indexed kernel of `replaceAll`. Every step either copies one
character or consumes a nonempty pattern occurrence, so fuel `s.length + 1`
always suffices and the zero-fuel branch is unreachable from `replaceAll`. -/
def replaceAllF : Nat → List Char → List Char → List Char → List Char
  | 0, s, _, _ => s
  | _ + 1, [], _, _ => []
  | n + 1, c :: rest, pat, v =>
    if pat.isPrefixOf (c :: rest) ∧ pat ≠ [] then
      v ++ replaceAllF n (rest.drop (pat.length - 1)) pat v
    else
      c :: replaceAllF n rest pat v

/-- Model of Rust `str::replace`: replace every non-overlapping occurrence of
`pat` in `s` by `v`, scanning from the left. An empty pattern never occurs in
the resolver (full matches are at least three characters). -/
def replaceAll (s pat v : List Char) : List Char :=
  replaceAllF (s.length + 1) s pat v

/-- The value a single match resolves to, mirroring the body of the loop in
`replace_values`: a missing `command` or `args` capture yields the empty
string; an unregistered command yields the empty string without invoking
anything; otherwise the handler's `process` runs (and is recorded in the
call log). -/
def resolveMatch {σ : Type} (reg : Registry σ) (st : σ × CallLog) (m : MatchData) :
    (σ × CallLog) × List Char :=
  match m.command, m.args with
  | some c, some a =>
    if reg.registered c then
      let p := reg.process st.1 c a m.default_value
      ((p.1, st.2 ++ [{ command := c, args := a, default_value := m.default_value }]), p.2)
    else (st, [])
  | _, _ => (st, [])

/-- One step of the fold inside `replace_values`: an escaped match is skipped;
otherwise the match is resolved and every occurrence of its full text is
replaced in the working string, and `exclusion_only` becomes false. -/
def rvStep {σ : Type} (reg : Registry σ)
    (acc : (σ × CallLog) × List Char × Bool) (m : MatchData) :
    (σ × CallLog) × List Char × Bool :=
  if m.exclude.isSome then acc
  else
    let r := resolveMatch reg acc.1 m
    (r.1, replaceAll acc.2.1 m.full r.2, false)

/-- Model of `Jakarta::replace_values`: scan the input once, collecting all
matches, then fold over them. Returns the new working string and the
`exclusion_only` flag (true iff every match found was escaped). -/
def replace_values {σ : Type} (j : Jakarta σ) (st : σ × CallLog) (s : List Char) :
    (σ × CallLog) × List Char × Bool :=
  (capturesList j.interpolation_regex s).foldl (rvStep j.command_map) (st, s, true)

/-- Model of `Jakarta::replace_exclusions`: replace every escaped match's full
text by that text with the captured escape marker stripped from the front. -/
def replace_exclusions {σ : Type} (j : Jakarta σ) (s : List Char) : List Char :=
  (capturesList j.interpolation_regex s).foldl
    (fun res m =>
      match m.exclude with
      | some e =>
        replaceAll res m.full (if e.isPrefixOf m.full then m.full.drop e.length else m.full)
      | none => res)
    s

/-- The fuel-indexed interpolation loop of `interpolate_string`: while the
regex matches, run `replace_values`; stop as soon as a pass found only
escaped matches. `none` means the fuel did not cover the number of passes. -/
def interpolateLoop {σ : Type} (j : Jakarta σ) :
    Nat → σ × CallLog → List Char → Option ((σ × CallLog) × List Char)
  | 0, _, _ => none
  | n + 1, st, s =>
    if isMatch j.interpolation_regex s then
      let r := replace_values j st s
      if r.2.2 then some (r.1, r.2.1)
      else interpolateLoop j n r.1 r.2.1
    else some (st, s)

/-- Model of `Jakarta::interpolate_string`: the resolution loop followed by
the final escape-stripping pass. -/
def interpolate_string {σ : Type} (j : Jakarta σ) (fuel : Nat) (st : σ × CallLog)
    (s : List Char) : Option ((σ × CallLog) × List Char) :=
  (interpolateLoop j fuel st s).map (fun r => (r.1, replace_exclusions j r.2))

/-- Shorthand turning a string literal into the character list the engine
works on. -/
def str (s : String) : List Char := s.toList

/-! ### Concrete registries used by the tests and the spec scenarios -/

/-- The empty command map. -/
def emptyReg : Registry Unit :=
  { registered := fun _ => false, process := fun st _ _ _ => (st, []) }

/-- An `env` handler over a finite environment, modelling `EnvCommand`:
look the variable up; on failure fall back to the default value, else the
empty string. -/
def envReg (env : List (List Char × List Char)) : Registry Unit :=
  { registered := fun c => c == str "env"
    process := fun st _ a d =>
      (st, (((env.find? (fun p => p.1 == a)).map (fun p => p.2)).getD (d.getD []))) }

/-- A registry with a single stateless handler `x` returning the fixed
string `v`. -/
def xReg (v : List Char) : Registry Unit :=
  { registered := fun c => c == str "x", process := fun st _ _ _ => (st, v) }

/-- The `TestCommand` of the repository's tests: `test` echoes its args,
`test_2` echoes its default value (or the literal `default`). -/
def testReg : Registry Unit :=
  { registered := fun c => c == str "test" || c == str "test_2"
    process := fun st c a d =>
      (st,
        if c = str "test" then a
        else if c = str "test_2" then d.getD (str "default")
        else []) }

/-- An `env` handler over an empty environment together with a handler `t`
returning the fixed string `X`. -/
def envTReg : Registry Unit :=
  { registered := fun c => c == str "env" || c == str "t"
    process := fun st c _ d => (st, if c = str "t" then str "X" else d.getD []) }

/-- A stateful handler `x` returning the placeholder text `${x:y}` on its
first invocation and `Z` afterwards, counting its invocations. -/
def stReg : Registry Nat :=
  { registered := fun c => c == str "x"
    process := fun n _ _ _ => (n + 1, if n = 0 then str "$\x7bx:y\x7d" else str "Z") }

/-- A stateful handler `x` returning `v0` on its first invocation and `v1`
afterwards, counting its invocations. -/
def ctrReg : Registry Nat :=
  { registered := fun c => c == str "x"
    process := fun n _ _ _ => (n + 1, if n = 0 then str "v0" else str "v1") }

/-! ### General lemmas about the resolver -/

/-- Iterating a handler's state through `n` successive `process` calls with
fixed command, args and default value. -/
def callIter {σ : Type} (reg : Registry σ) (c a : List Char) (d : Option (List Char)) :
    Nat → σ → σ
  | 0, st => st
  | n + 1, st => callIter reg c a d n (reg.process st c a d).1

theorem replaceAllF_no_occ (pat v : List Char) :
    ∀ (n : Nat) (s : List Char), ¬ pat <:+: s → replaceAllF n s pat v = s := by
  intro n
  induction n with
  | zero => intro s _; rfl
  | succ k ih =>
    intro s h
    match s with
    | [] => rfl
    | c :: rest =>
      have hcond : ¬ (pat.isPrefixOf (c :: rest) ∧ pat ≠ []) := by
        rintro ⟨hpre, -⟩
        exact h ((List.isPrefixOf_iff_prefix.mp hpre).isInfix)
      simp only [replaceAllF, if_neg hcond]
      rw [ih rest (fun hin => h (List.infix_cons hin))]

theorem replaceAll_no_occ (pat v s : List Char) (h : ¬ pat <:+: s) :
    replaceAll s pat v = s :=
  replaceAllF_no_occ pat v (s.length + 1) s h

theorem rv_fold_escaped {σ : Type} (reg : Registry σ) (ms : List MatchData)
    (acc : (σ × CallLog) × List Char × Bool) (h : ∀ m ∈ ms, m.exclude.isSome = true) :
    ms.foldl (rvStep reg) acc = acc := by
  induction ms generalizing acc with
  | nil => rfl
  | cons m ms ih =>
    have hm := h m (List.mem_cons_self m ms)
    rw [List.foldl_cons, rvStep, if_pos hm]
    exact ih acc (fun m' hm' => h m' (List.mem_cons_of_mem m hm'))

theorem rv_fold_replicate {σ : Type} (reg : Registry σ) (m : MatchData)
    (c a : List Char) (hex : m.exclude = none) (hc : m.command = some c)
    (ha : m.args = some a) (hreg : reg.registered c = true) :
    ∀ (n : Nat) (st : σ) (log : CallLog) (u : List Char), ¬ m.full <:+: u →
      (List.replicate n m).foldl (rvStep reg) ((st, log), u, false) =
        ((callIter reg c a m.default_value n st,
          log ++ List.replicate n ⟨c, a, m.default_value⟩), u, false) := by
  intro n
  induction n with
  | zero => intro st log u _; simp [callIter]
  | succ k ih =>
    intro st log u hu
    have hres : resolveMatch reg (st, log) m =
        (((reg.process st c a m.default_value).1,
          log ++ [{ command := c, args := a, default_value := m.default_value }]),
         (reg.process st c a m.default_value).2) := by
      simp [resolveMatch, hc, ha, hreg]
    have hstep : rvStep reg ((st, log), u, false) m =
        (((reg.process st c a m.default_value).1,
          log ++ [{ command := c, args := a, default_value := m.default_value }]),
         u, false) := by
      rw [rvStep, if_neg (by simp [hex])]
      simp only [hres]
      rw [replaceAll_no_occ m.full _ u hu]
    rw [List.replicate_succ, List.foldl_cons, hstep]
    rw [ih _ _ u hu]
    simp [callIter, List.replicate_succ]

/-! ### Claims -/

/-- C1: For every command map, `Jakarta::new` succeeds: compiling the fixed
interpolation pattern is the only failure point, it does not depend on user
input, and the fixed pattern is valid; moreover whenever the resolution loop
finishes, `interpolate_string` returns a plain string, with no error
channel. -/
theorem jakarta_new_ok :
    (∀ (σ : Type) (reg : Registry σ), Jakarta.new reg = Except.ok (theJakarta reg)) ∧
    (∀ (σ : Type) (reg : Registry σ) (n : Nat) (st : σ × CallLog) (s : List Char),
      (interpolateLoop (theJakarta reg) n st s).isSome = true →
      (interpolate_string (theJakarta reg) n st s).isSome = true) := by
  constructor
  · intro σ reg
    rfl
  · intro σ reg n st s h
    cases hl : interpolateLoop (theJakarta reg) n st s with
    | none => rw [hl] at h; exact absurd h (by simp)
    | some r => simp [interpolate_string, hl]

/-- Closed witness for C1: the loop finishes on a concrete input and
`interpolate_string` returns a string; `new` succeeds on the empty map. -/
theorem jakarta_new_ok_witness :
    (interpolate_string (theJakarta emptyReg) 2 ((), []) (str "hi")).isSome = true ∧
    Jakarta.new emptyReg = Except.ok (theJakarta emptyReg) :=
  ⟨jakarta_new_ok.2 Unit emptyReg 2 ((), []) (str "hi") (by decide),
   jakarta_new_ok.1 Unit emptyReg⟩

/-- C2: Nested placeholders resolve inside-out: on
`${env:VAR_${env:VAR_1}}` the single match of the first pass is the
innermost `${env:VAR_1}` (the outer form cannot match because its args
would contain a brace), and with `VAR_1 = "2"`, `VAR_2 = "VAL"` the whole
interpolation returns `VAL`, calling the env handler on `VAR_1` and then on
`VAR_2`. -/
theorem nested_placeholder_interpolation :
    (capturesList jakartaRe (str "$\x7benv:VAR_$\x7benv:VAR_1\x7d\x7d")).map
        (fun m => m.full) = [str "$\x7benv:VAR_1\x7d"] ∧
    interpolate_string
        (theJakarta (envReg [(str "VAR_1", str "2"), (str "VAR_2", str "VAL")]))
        6 ((), []) (str "$\x7benv:VAR_$\x7benv:VAR_1\x7d\x7d") =
      some (((), [⟨str "env", str "VAR_1", none⟩, ⟨str "env", str "VAR_2", none⟩]),
        str "VAL") := by
  constructor
  · decide
  · decide

/-- C3: An escaped placeholder is never dispatched and collapses to literal
placeholder text: `a $${x:y} b` interpolates to `a ${x:y} b` with an empty
call log (handler `x` is never invoked), and the final escape-stripping pass
alone already produces that text. -/
theorem escaped_placeholder_literal :
    interpolate_string (theJakarta (xReg (str "V"))) 6 ((), []) (str "a $$\x7bx:y\x7d b") =
      some (((), []), str "a $\x7bx:y\x7d b") ∧
    replace_exclusions (theJakarta (xReg (str "V"))) (str "a $$\x7bx:y\x7d b") =
      str "a $\x7bx:y\x7d b" := by
  constructor
  · decide
  · decide

/-- C4 (counterexample): escaped matches do NOT always survive a resolution
pass untouched. In `$${x:y} ${x:y}` the first match is escaped and the second
is not, but substituting the second replaces every occurrence of `${x:y}` in
the working string, including the one inside the escaped `$${x:y}`: the pass
yields `$V V` and the escaped match's full text no longer occurs. -/
theorem escaped_match_rewritten_cex :
    (capturesList jakartaRe (str "$$\x7bx:y\x7d $\x7bx:y\x7d")).map
        (fun m => (m.full, m.exclude.isSome)) =
      [(str "$$\x7bx:y\x7d", true), (str "$\x7bx:y\x7d", false)] ∧
    replace_values (theJakarta (xReg (str "V"))) ((), []) (str "$$\x7bx:y\x7d $\x7bx:y\x7d") =
      (((), [⟨str "x", str "y", none⟩]), str "$V V", false) ∧
    ¬ (str "$$\x7bx:y\x7d") <:+: (str "$V V") := by
  refine ⟨by decide, by decide, by decide⟩

/-- C4 (amended): a resolution pass never dispatches an escaped match, and
when every match of the pass is escaped the working string, handler state and
call log are returned byte-for-byte unchanged with `exclusion_only = true`;
an escaped match's text is only rewritten when a non-escaped match's full
text occurs inside it (see the counterexample). -/
theorem escaped_only_pass_untouched (σ : Type) (reg : Registry σ) (st : σ × CallLog)
    (s : List Char) (h : ∀ m ∈ capturesList jakartaRe s, m.exclude.isSome = true) :
    replace_values (theJakarta reg) st s = (st, s, true) :=
  rv_fold_escaped reg (capturesList jakartaRe s) (st, s, true) h

/-- Closed witness for the amended C4 at a concrete escaped-only input. -/
theorem escaped_only_pass_untouched_witness :
    replace_values (theJakarta (xReg (str "V"))) (((), []) : Unit × CallLog)
        (str "a $$\x7bx:y\x7d b") =
      ((((), []) : Unit × CallLog), str "a $$\x7bx:y\x7d b", true) :=
  escaped_only_pass_untouched Unit (xReg (str "V")) ((), []) (str "a $$\x7bx:y\x7d b")
    (by decide)

/-- C5: A non-escaped placeholder whose command has no registered handler
resolves to the empty string without invoking any handler (state and call
log unchanged); concretely, with an empty registry `x ${env:A}` interpolates
to `x ` with an empty call log. -/
theorem unknown_command_resolves_empty :
    (∀ (σ : Type) (reg : Registry σ) (st : σ × CallLog) (m : MatchData) (c : List Char),
      m.command = some c → reg.registered c = false → resolveMatch reg st m = (st, [])) ∧
    interpolate_string (theJakarta emptyReg) 6 ((), []) (str "x $\x7benv:A\x7d") =
      some (((), []), str "x ") := by
  constructor
  · intro σ reg st m c hc hreg
    match hargs : m.args with
    | none => simp [resolveMatch, hc, hargs]
    | some a => simp [resolveMatch, hc, hargs, hreg]
  · decide

/-- Closed witness for C5 at the concrete match of `${env:A}` against the
empty registry. -/
theorem unknown_command_resolves_empty_witness :
    resolveMatch emptyReg (((), []) : Unit × CallLog)
        ⟨str "$\x7benv:A\x7d", none, some (str "env"), some (str "A"), none⟩ =
      ((((), []) : Unit × CallLog), []) :=
  unknown_command_resolves_empty.1 Unit emptyReg ((), [])
    ⟨str "$\x7benv:A\x7d", none, some (str "env"), some (str "A"), none⟩ (str "env") rfl rfl

/-- C6 (counterexample): the `:-` default is NOT honoured for an unknown
command, and a substituted default IS reprocessed. With an empty registry,
`${foo:bar:-dflt}` interpolates to the empty string (the unknown-command
branch ignores the captured default `dflt`); and with an env handler (empty
environment) plus a handler `t` returning `X`, `${env:UNSET:-${t:1}}`
interpolates to `X`: the default text `${t:1}` is substituted and then
resolved as a placeholder in the next pass. -/
theorem default_ignored_and_reprocessed_cex :
    (interpolate_string (theJakarta emptyReg) 6 ((), []) (str "$\x7bfoo:bar:-dflt\x7d") =
        some (((), []), ([] : List Char)) ∧
      str "dflt" ≠ ([] : List Char)) ∧
    (interpolate_string (theJakarta envTReg) 6 ((), []) (str "$\x7benv:UNSET:-$\x7bt:1\x7d\x7d") =
        some (((), [⟨str "env", str "UNSET", some (str "$\x7bt:1\x7d")⟩,
          ⟨str "t", str "1", none⟩]), str "X") ∧
      str "X" ≠ str "$\x7bt:1\x7d") := by
  refine ⟨⟨by decide, by decide⟩, by decide, by decide⟩

/-- C6 (amended): with a `:-` default, a registered command whose referenced
value is unset yields the default through the handler (the env handler
returns the default on a failed lookup); an unknown command yields the empty
string even when a default is present; and a substituted default is
reprocessed for placeholders in subsequent passes. -/
theorem default_fallback_amended :
    interpolate_string (theJakarta (envReg [])) 6 ((), []) (str "$\x7benv:A:-fallback\x7d") =
      some (((), [⟨str "env", str "A", some (str "fallback")⟩]), str "fallback") ∧
    interpolate_string (theJakarta emptyReg) 6 ((), []) (str "$\x7bfoo:bar:-dflt\x7d") =
      some (((), []), ([] : List Char)) ∧
    interpolate_string (theJakarta envTReg) 6 ((), []) (str "$\x7benv:UNSET:-$\x7bt:1\x7d\x7d") =
      some (((), [⟨str "env", str "UNSET", some (str "$\x7bt:1\x7d")⟩,
        ⟨str "t", str "1", none⟩]), str "X") := by
  refine ⟨by decide, by decide, by decide⟩

/-- C8 (counterexample): the captured default is NOT bounded by the
placeholder's own closing brace. In `${test_2:1:-A} ${test:2}` the greedy
default capture `.+` extends to the last closing brace of the text, so the
single match captures `A} ${test:2` as default, not `A`. -/
theorem default_capture_greedy_cex :
    (capturesList jakartaRe (str "$\x7btest_2:1:-A\x7d $\x7btest:2\x7d")).map
        (fun m => m.default_value) = [some (str "A\x7d $\x7btest:2")] ∧
    some (str "A\x7d $\x7btest:2") ≠ some (str "A") := by
  refine ⟨by decide, by decide⟩

/-- C8 (amended): the captured default runs greedily from `:-` to the last
closing brace that still lets the whole pattern match — when further text
with braces follows, the match swallows it — and only ends at the
placeholder's own closing brace when no later brace follows; e.g. with the
echo-default handler, `${test_2:123:-my default value}` resolves to
`my default value`. -/
theorem default_runs_to_last_brace :
    interpolate_string (theJakarta testReg) 6 ((), [])
        (str "$\x7btest_2:123:-my default value\x7d") =
      some (((), [⟨str "test_2", str "123", some (str "my default value")⟩]),
        str "my default value") ∧
    (capturesList jakartaRe (str "$\x7btest_2:1:-A\x7d $\x7btest:2\x7d")).map
        (fun m => (m.full, m.default_value)) =
      [(str "$\x7btest_2:1:-A\x7d $\x7btest:2\x7d", some (str "A\x7d $\x7btest:2"))] := by
  refine ⟨by decide, by decide⟩

/-- C9 (counterexample): a placeholder with a nonempty inner that is missing
a command or a path does NOT match the pattern as an empty match: `${x}` has
no colon, so the regex does not match it at all and `interpolate_string`
returns it unchanged instead of replacing it with the empty string. -/
theorem malformed_unchanged_cex :
    interpolate_string (theJakarta emptyReg) 6 ((), []) (str "$\x7bx\x7d") =
      some (((), []), str "$\x7bx\x7d") ∧
    str "$\x7bx\x7d" ≠ ([] : List Char) := by
  refine ⟨by decide, by decide⟩

/-- C9 (amended): only the entirely empty inner `${}` matches (as a trivial
match with no command capture) and is replaced by the empty string; the
malformed `${ }`, `${x}` and `${:x}` do not match the pattern at all and
pass through interpolation unchanged. -/
theorem malformed_placeholder_amended :
    ((capturesList jakartaRe (str "$\x7b\x7d")).map (fun m => (m.full, m.command)) =
        [(str "$\x7b\x7d", none)] ∧
      interpolate_string (theJakarta emptyReg) 6 ((), []) (str "$\x7b\x7d") =
        some (((), []), ([] : List Char))) ∧
    interpolate_string (theJakarta emptyReg) 6 ((), []) (str "$\x7b \x7d") =
      some (((), []), str "$\x7b \x7d") ∧
    interpolate_string (theJakarta emptyReg) 6 ((), []) (str "$\x7bx\x7d") =
      some (((), []), str "$\x7bx\x7d") ∧
    interpolate_string (theJakarta emptyReg) 6 ((), []) (str "$\x7b:x\x7d") =
      some (((), []), str "$\x7b:x\x7d") := by
  refine ⟨⟨by decide, by decide⟩, by decide, by decide, by decide⟩

/-- C10 (counterexample): when the same placeholder text matches twice in one
pass, later invocations' return values CAN appear in the output. With a
stateful handler whose first invocation returns the placeholder text itself
(`${x:y}`) and whose second returns `Z`, the pass over `a ${x:y} b ${x:y}`
invokes the handler twice, and both occurrences end up as `Z` — the second
invocation's value — not as the first invocation's return. -/
theorem duplicate_first_value_cex :
    replace_values (theJakarta stReg) ((0 : Nat), []) (str "a $\x7bx:y\x7d b $\x7bx:y\x7d") =
      ((2, [⟨str "x", str "y", none⟩, ⟨str "x", str "y", none⟩]), str "a Z b Z", false) ∧
    str "a Z b Z" ≠ str "a $\x7bx:y\x7d b $\x7bx:y\x7d" := by
  refine ⟨by decide, by decide⟩

/-- C10 (amended): when the matches of a pass are `k + 2` copies of one
non-escaped match with a registered command, the handler is invoked once per
occurrence (the call log grows by `k + 2` entries and the handler state is
iterated `k + 2` times), and — provided the first replacement leaves no
further occurrence of the matched text — the resulting string is the one
obtained by substituting the FIRST invocation's return value for every
occurrence; the later invocations' return values never appear. -/
theorem duplicate_matches_first_value (σ : Type) (reg : Registry σ) (st : σ) (log : CallLog)
    (s : List Char) (m : MatchData) (k : Nat) (c a : List Char)
    (hcap : capturesList jakartaRe s = List.replicate (k + 2) m)
    (hex : m.exclude = none) (hc : m.command = some c) (ha : m.args = some a)
    (hreg : reg.registered c = true)
    (hni : ¬ m.full <:+: replaceAll s m.full (reg.process st c a m.default_value).2) :
    replace_values (theJakarta reg) (st, log) s =
      ((callIter reg c a m.default_value (k + 2) st,
        log ++ List.replicate (k + 2) ⟨c, a, m.default_value⟩),
       replaceAll s m.full (reg.process st c a m.default_value).2, false) := by
  show (capturesList jakartaRe s).foldl (rvStep reg) ((st, log), s, true) = _
  rw [hcap, List.replicate_succ, List.foldl_cons]
  have hres : resolveMatch reg (st, log) m =
      (((reg.process st c a m.default_value).1,
        log ++ [{ command := c, args := a, default_value := m.default_value }]),
       (reg.process st c a m.default_value).2) := by
    simp [resolveMatch, hc, ha, hreg]
  have hstep : rvStep reg ((st, log), s, true) m =
      (((reg.process st c a m.default_value).1,
        log ++ [{ command := c, args := a, default_value := m.default_value }]),
       replaceAll s m.full (reg.process st c a m.default_value).2, false) := by
    rw [rvStep, if_neg (by simp [hex])]
    simp only [hres]
  rw [hstep, rv_fold_replicate reg m c a hex hc ha hreg (k + 1) _ _ _ hni]
  simp [callIter, List.replicate_succ]

/-- Closed witness for the amended C10: a counting handler on
`a ${x:y} b ${x:y}` is invoked twice and both occurrences carry the first
invocation's value `v0`. -/
theorem duplicate_matches_first_value_witness :
    replace_values (theJakarta ctrReg) ((0 : Nat), []) (str "a $\x7bx:y\x7d b $\x7bx:y\x7d") =
      ((2, [⟨str "x", str "y", none⟩, ⟨str "x", str "y", none⟩]), str "a v0 b v0", false) := by
  have h := duplicate_matches_first_value Nat ctrReg 0 [] (str "a $\x7bx:y\x7d b $\x7bx:y\x7d")
    ⟨str "$\x7bx:y\x7d", none, some (str "x"), some (str "y"), none⟩ 0 (str "x") (str "y")
    (by decide) rfl rfl rfl (by decide) (by decide)
  exact h.trans (by decide)
